import Mathlib

/-!
Verification development for the aspyre dispatch core
(files `aspyre/aspyre.py`, `aspyre/dictionary.py`, `aspyre/error.py`,
`aspyre/url_class.py`, `aspyre/codec.py`).

The Python code is shallowly embedded: each relevant Python function is
translated into an executable Lean definition; Python dictionaries become
insertion-ordered association lists (Python dict keys are unique and
iteration follows insertion order), Python exceptions become an explicit
`PyErr` error channel threaded through `Except`, and Python `None` becomes
`Option.none`.
-/

namespace AspyreModel

/-- Python exceptions that the modelled code can raise. -/
inductive PyErr where
  /-- Exception `KeyError(k)`: subscripting a dict with a missing key. -/
  | keyError (k : String)
  /-- Exception `ValueError`: e.g. tuple-unpacking a split with the wrong arity,
  or a failing numeric conversion. -/
  | valueError
  /-- Exception `AttributeError`: missing attribute, or mutation of the reserved
  history slot of `AspyreDictHistory`. -/
  | attributeError
  /-- Exception `TypeError`: e.g. item assignment on the immutable dict view. -/
  | typeError
  /-- Exception `IndexError`: list subscript out of range. -/
  | indexError
  /-- Exception `UnboundLocalError`: reading a function-local variable before any
  assignment to it has executed. -/
  | unboundLocalError
  deriving DecidableEq, Repr

/- ## Association-list primitives (Python `dict` semantics)

A Python `dict` maps unique keys to values and iterates in insertion
order.  We model a dict as a `List (key × value)`; every operation below
acts on the first occurrence of a key, which on unique-key lists agrees
with Python exactly. -/

/-- Subscript `d[k]` as a total lookup: the value at the first occurrence of `k`. -/
def lookupAssoc {β : Type} : List (String × β) → String → Option β
  | [], _ => none
  | (k, v) :: rest, key => if k = key then some v else lookupAssoc rest key

/-- Assignment `d[k] = v`: overwrite the value at an existing key in place, otherwise
append the new key at the end (Python dicts keep insertion order). -/
def updateAssoc {β : Type} : List (String × β) → String → β → List (String × β)
  | [], key, v => [(key, v)]
  | (k, w) :: rest, key, v =>
      if k = key then (k, v) :: rest else (k, w) :: updateAssoc rest key v

/-- Deletion `del d[k]`: remove the entry at the first occurrence of `k`
(no-op when absent; the modelled call sites only delete present keys). -/
def eraseAssoc {β : Type} : List (String × β) → String → List (String × β)
  | [], _ => []
  | (k, w) :: rest, key =>
      if k = key then rest else (k, w) :: eraseAssoc rest key

/-- Update `d.update(d2)`: write every entry of `d2` into `d` in order. -/
def updateAll {β : Type} (d d2 : List (String × β)) : List (String × β) :=
  d2.foldl (fun acc kv => updateAssoc acc kv.1 kv.2) d

/-- Python list subscript `l[i]`: a negative index counts from the end;
`none` models the `IndexError` on an out-of-range result. -/
def pyListGet {β : Type} (l : List β) (version : Int) : Option β :=
  let idx : Int := if version < 0 then (l.length : Int) + version else version
  if 0 ≤ idx then l.get? idx.toNat else none

/-- Python `str.lower` on the ASCII range: lowercase each character.
(Spelled out over the character list so that it reduces inside the
kernel; `String.toLower` is semantically identical.) -/
def pyLower (s : String) : String :=
  String.mk (s.toList.map Char.toLower)

/-- Python `str.upper` on the ASCII range. -/
def pyUpper (s : String) : String :=
  String.mk (s.toList.map Char.toUpper)

/-- Fuel-indexed worker for `pySplit`; the fuel is the input length, which
bounds the recursion depth. -/
def pySplitAux (sep : List Char) : Nat → List Char → List Char →
    List (List Char)
  | _, [], acc => [acc.reverse]
  | 0, l, acc => [acc.reverse ++ l]
  | n + 1, c :: rest, acc =>
      if sep.isPrefixOf (c :: rest) then
        acc.reverse :: pySplitAux sep n ((c :: rest).drop sep.length) []
      else
        pySplitAux sep n rest (c :: acc)

/-- Python `s.split(sep)` for a non-empty separator: cut at every
occurrence of `sep`, keeping empty pieces, exactly as `str.split` does
(`str.split` raises on an empty separator; no modelled call passes one). -/
def pySplit (s sep : String) : List String :=
  if sep.toList.isEmpty then [s]
  else (pySplitAux sep.toList s.toList.length s.toList []).map String.mk

/- ## dictionary.py -/

/-- Key normalization shared by both `__find_key__` implementations:
`''.join(char for char in str(key).lower() if char in string.ascii_lowercase)`. -/
def normalize_key (s : String) : String :=
  String.mk ((pyLower s).toList.filter fun c => 'a' ≤ c && c ≤ 'z')

/-- Values stored in an aspyre dict's `__dict__`.

`prim` is an ordinary (non-mapping) Python value of type `α`.  The other
three constructors model the versioned-context machinery of
`AspyreDictHistory`: the reserved `'__history'` key holds a `histList`,
whose entries are either `selfref` — the live context object, which
`AspyreDictHistory.__init__` aliases into its own history — or `snapObj d`,
a snapshot object with `__dict__ = d`.  (In Python the history entries
alias heap objects; the value model copies them.  The one aliasing effect
this cannot represent — `rollback` deleting the history slot of a snapshot
object that other snapshots' histories still reference — is exercised by
no operation sequence appearing in the claims.) -/
inductive DVal (α : Type) where
  | prim : α → DVal α
  | histList : List (DVal α) → DVal α
  | selfref : DVal α
  | snapObj : List (String × DVal α) → DVal α

/-- The `__dict__` of an aspyre dictionary object. -/
abbrev Store (α : Type) := List (String × DVal α)

/-- Method `AspyreDictImmutable.__find_key__`: normalize the probe, then return the
first stored key (in insertion order, the reserved history slot included)
whose own normalization equals it; `(False, key)` when none does. -/
def AspyreDictImmutable.find_key {α : Type} (store : Store α) (key : String) :
    Bool × String :=
  match store.find? (fun kv => normalize_key kv.1 = normalize_key key) with
  | some kv => (true, kv.1)
  | none => (false, key)

/-- Method `AspyreDictHistory.__find_key__`: normalize the probe, skip the literal
`'__history'` key, and compare the normalized probe against each stored key
RAW — the stored key is not normalized, unlike in
`AspyreDictImmutable.__find_key__`. -/
def AspyreDictHistory.find_key {α : Type} (store : Store α) (key : String) :
    Bool × String :=
  match store.find? (fun kv => kv.1 ≠ "__history" && kv.1 = normalize_key key) with
  | some kv => (true, kv.1)
  | none => (false, key)

/-- Method `AspyreDictImmutable.__getitem__`, inherited unchanged by `AspyreDict`:
look the key up via `self.__class__.__find_key__` (for instances of either
class this resolves to `AspyreDictImmutable.__find_key__`) and return the
stored value when found, `None` otherwise — no exception path exists. -/
def AspyreDictImmutable.getitem {α : Type} (store : Store α) (key : String) :
    Option (DVal α) :=
  match AspyreDictImmutable.find_key store key with
  | (true, k) => lookupAssoc store k
  | (false, _) => none

/-- Method `AspyreDict.__setitem__`: resolve the slot with
`super().__find_key__` (statically `AspyreDictImmutable.__find_key__`,
ignoring the found flag) and assign.  The `isinstance` branches wrapping
mapping values apply only to mapping-typed values; the model's value domain
`α` is the non-mapping values, which the final branch stores unchanged. -/
def AspyreDict.setitem {α : Type} (store : Store α) (key : String) (v : α) :
    Store α :=
  let k := (AspyreDictImmutable.find_key store key).2
  updateAssoc store k (DVal.prim v)

/-- Method `AspyreDict.__delitem__`: resolve via `super().__find_key__` and delete
the found raw key; silently do nothing when not found. -/
def AspyreDict.delitem {α : Type} (store : Store α) (key : String) : Store α :=
  match AspyreDictImmutable.find_key store key with
  | (true, k) => eraseAssoc store k
  | (false, _) => store

/-- Method `AspyreDictHistory.__getitem__`: a probe whose `.lower()` is the literal
`'__history'` returns `None`; otherwise `super().__getitem__`, whose
`self.__class__.__find_key__` dispatches to
`AspyreDictHistory.find_key` for instances of this class. -/
def AspyreDictHistory.getitem {α : Type} (store : Store α) (key : String) :
    Option (DVal α) :=
  if pyLower key = "__history" then none
  else
    match AspyreDictHistory.find_key store key with
    | (true, k) => lookupAssoc store k
    | (false, _) => none

/-- Method `AspyreDictHistory.__setitem__`: raise `AttributeError` when the probe's
`.lower()` is the literal `'__history'`, otherwise `AspyreDict.__setitem__`. -/
def AspyreDictHistory.setitem {α : Type} (store : Store α) (key : String)
    (v : α) : Except PyErr (Store α) :=
  if pyLower key = "__history" then .error .attributeError
  else .ok (AspyreDict.setitem store key v)

/-- Method `AspyreDictHistory.__delitem__`: the same reserved-slot guard, then
`AspyreDict.__delitem__`. -/
def AspyreDictHistory.delitem {α : Type} (store : Store α) (key : String) :
    Except PyErr (Store α) :=
  if pyLower key = "__history" then .error .attributeError
  else .ok (AspyreDict.delitem store key)

/-- Constructor `AspyreDictHistory()` on no argument: `AspyreDictImmutable.__init__`
stores `__dict__['__history'] = []`, then `AspyreDictHistory.__init__`
overwrites it with `[self]` — the live object aliased into its own
history, modelled by `selfref`. -/
def AspyreDictHistory.new (α : Type) : Store α :=
  [("__history", DVal.histList [DVal.selfref])]

/-- Read the reserved history slot: `self.__dict__['__history']`, demanding
the list the class maintains there (`KeyError` when the slot is absent,
`TypeError` when a foreign value sits in it). -/
def historySlot {α : Type} (store : Store α) : Except PyErr (List (DVal α)) :=
  match lookupAssoc store "__history" with
  | some (DVal.histList l) => .ok l
  | some _ => .error .typeError
  | none => .error (.keyError "__history")

/-- Method `AspyreDictHistory.get_current_version`: `len(self.__dict__['__history'])`. -/
def AspyreDictHistory.get_current_version {α : Type} (store : Store α) :
    Except PyErr Nat :=
  (historySlot store).map List.length

/-- The snapshot object `self.__class__(self)` built by `save`:
`AspyreDictImmutable.__init__` copies the whole `__dict__` and deletes the
history slot, then `AspyreDictHistory.__init__` installs a fresh key
`'__history'` (appended last) holding a copy of the parent's current
history list. -/
def AspyreDictHistory.snapshotOf {α : Type} (store : Store α)
    (hist : List (DVal α)) : Store α :=
  eraseAssoc store "__history" ++ [("__history", DVal.histList hist)]

/-- Method `AspyreDictHistory.save`: append the snapshot of the current state to
the history list in place (the constructor copies the history before the
append, so the snapshot's stored history excludes the snapshot itself),
then return `get_current_version()` of the grown history. -/
def AspyreDictHistory.save {α : Type} (store : Store α) :
    Except PyErr (Store α × Nat) :=
  match historySlot store with
  | .error e => .error e
  | .ok l =>
      let snap := DVal.snapObj (AspyreDictHistory.snapshotOf store l)
      let store' := updateAssoc store "__history" (DVal.histList (l ++ [snap]))
      .ok (store', l.length + 1)

/-- Method `AspyreDictHistory.rollback(version)`:

* `state = self.__dict__['__history'][version]` — Python list indexing,
  negative indices counting from the end;
* `history = state.__dict__['__history']; del state.__dict__['__history']` —
  capture the snapshot's own stored history and drop it from the
  snapshot's dict;
* `self.__dict__.clear(); self.__dict__.update(state.__dict__)` — the live
  dict becomes the snapshot's remaining entries, in the snapshot's order;
* `self.__dict__['__history'] = list(history)` — a fresh key appended last.

When `state` is the `selfref` entry, `state.__dict__` IS the live dict:
after the delete and the clear it is empty, so the result keeps only the
final history assignment (the captured list object survives the clear). -/
def AspyreDictHistory.rollback {α : Type} (store : Store α) (version : Int) :
    Except PyErr (Store α) :=
  match historySlot store with
  | .error e => .error e
  | .ok l =>
      match pyListGet l version with
      | some DVal.selfref => .ok [("__history", DVal.histList l)]
      | some (DVal.snapObj sdict) =>
          match lookupAssoc sdict "__history" with
          | some (DVal.histList hist) =>
              .ok (eraseAssoc sdict "__history" ++
                [("__history", DVal.histList hist)])
          | some _ => .error .typeError
          | none => .error (.keyError "__history")
      | some _ => .error .typeError
      | none => .error .indexError

/-- Iterated `save()`: `n` consecutive calls, keeping the final store. -/
def AspyreDictHistory.saveIter {α : Type} (store : Store α) :
    Nat → Except PyErr (Store α)
  | 0 => .ok store
  | n + 1 =>
      match AspyreDictHistory.saveIter store n with
      | .error e => .error e
      | .ok s =>
          match AspyreDictHistory.save s with
          | .error e => .error e
          | .ok (s', _) => .ok s'

/-- The non-reserved content of a context: every entry except the reserved
history slot, in order. -/
def dataPart {α : Type} (store : Store α) : Store α :=
  store.filter fun kv => kv.1 ≠ "__history"

/- ## error.py -/

/-- The `HTTPResponses` table, verbatim (including the misnumbered
redirect texts and the easter egg). -/
def HTTPResponses : List (Nat × String) :=
  [(100, "100 Continue"), (101, "101 Switching Protocols"),
   (200, "200 OK"), (201, "201 Created"), (202, "202 Accepted"),
   (203, "203 Non-Authoritative Information"), (204, "204 No Content"),
   (205, "205 Reset Content"), (206, "206 Partial Content"),
   (300, "300 Multiple Choices"), (301, "307 Temporary Redirect"),
   (302, "307 Temporary Redirect"), (303, "307 Temporary Redirect"),
   (304, "304 Not Modified"), (305, "305 Use Proxy"),
   (307, "306 Temporary Redirect"),
   (400, "400 Bad Request"), (401, "401 Unauthorized"),
   (402, "402 Payment Required"), (403, "403 Forbidden"),
   (404, "404 Not Found"), (405, "405 Method Not Allowed"),
   (406, "406 Not Acceptable"), (407, "407 Proxy Authentication Required"),
   (408, "408 Request Timeout"), (409, "409 Conflict"), (410, "410 Gone"),
   (411, "411 Length Request"), (412, "412 Precondition Failed"),
   (413, "413 Request Entity Too Large"), (414, "414 Request-URI Too Long"),
   (415, "415 Unsupported Media Type"), (416, "416 Range Not Satisfiable"),
   (417, "417 Expectation Failed"), (418, "418 I'm a teapot"),
   (500, "500 Internal Server Error"), (501, "501 Not Implemented"),
   (502, "502 Bad Gateway"), (503, "503 Service Unavailable"),
   (504, "504 Gateway Timeout"), (505, "505 HTTP Version Not Supported"),
   (555, "555 Running Aspyre")]

/-- Python `str.capitalize`: first character uppercased, the rest lowercased. -/
def pyCapitalize (s : String) : String :=
  match s.toList with
  | [] => ""
  | c :: rest => String.mk (c.toUpper :: rest.map Char.toLower)

/-- The class-name derivation of the error-class generation loop:
`''.join([s.capitalize() for s in ''.join([c for c in text if c.isalpha() or c == ' ']).split(' ')])`. -/
def errorClassName (text : String) : String :=
  String.join
    ((pySplit (String.mk (text.toList.filter fun c => c.isAlpha || c = ' ')) " ").map
      pyCapitalize)

/-- The module-level generation loop: for every table entry with status
code `≥ 300`, bind the derived class name to an error class carrying that
status code.  Later entries overwrite earlier ones under the same name
(`globals()[class_name] = ...`), exactly as the four `TemporaryRedirect`
texts do. -/
def errorClasses : List (String × Nat) :=
  (HTTPResponses.filter fun p => ¬ p.1 < 300).foldl
    (fun acc p => updateAssoc acc (errorClassName p.2) p.1) []

/-- The `Error` exception state: `(http_code, error_code?, message?,
short_name?, reraise)`. -/
structure Error where
  http_code : Nat
  error_code : Option Int
  message : Option String
  short_name : Option String
  reraise : Bool
  deriving DecidableEq, Repr

/-- Instantiating a generated error class `E(message=msg)`: the subclass
fixes `http_code` to its table code and defaults `error_code`,
`short_name` to `None` and `reraise` to `False`.  (`0` stands in for the
impossible case of a name the generation loop did not bind; the theorems
about the bound names never see it.) -/
def raiseErrorClass (name : String) (msg : String) : Error :=
  { http_code := (lookupAssoc errorClasses name).getD 0
    error_code := none
    message := some msg
    short_name := none
    reraise := false }

/- ## aspyre.py -/

/-- Table `Methods['http_methods']`. -/
def http_methods : List String := ["get", "post", "put", "patch", "delete"]

/-- Outcome of `Aspyre.__call__`: an `error.*` exception deliberately
raised by it, or a crash with an ordinary Python exception. -/
inductive CallOutcome where
  | raised (e : Error)
  | crashed (err : PyErr)
  deriving DecidableEq, Repr

/-- The value the dispatch site binds to `handlers` at `aspyre.py` line 62:
`find` is an `async def`, and `self.find(host, path, method)` is written
without `await`, so none of `find`'s body runs and the call yields a
coroutine object wrapping the pending computation — not the `OrderedDict`
(or `None`) that `find` would produce. -/
inductive PyCallResult (β : Type) where
  | coroutine (pending : β)
  deriving DecidableEq, Repr

/-- Python truthiness of that value: a coroutine object defines neither
`__bool__` nor `__len__`, so `if handlers:` sees it as truthy, whatever
the pending `find` would have returned. -/
def pyTruthy {β : Type} : PyCallResult β → Bool
  | .coroutine _ => true

/-- Method `Aspyre.__call__`: raise `error.NotImplemented` when the method
is outside `Methods['http_methods']`; otherwise bind `handlers` to the
un-awaited `self.find(...)` coroutine and test its truthiness.  The test
is always true, so the `raise error.NotFound` arm (line 66) is dead code
and control always reaches `return self.handle(handlers, input,
query_string)` — which binds three positional arguments against
`handle(self, handlers, input, headers, query_string)`'s four required
parameters and raises `TypeError` at the call, before any of `handle`'s
body runs. -/
def Aspyre.call {β : Type} (method : String)
    (findCoroutine : PyCallResult β) : CallOutcome :=
  if ¬ http_methods.contains method then
    .raised
      (raiseErrorClass "NotImplemented" "The server does not support this HTTP method.")
  else
    if pyTruthy findCoroutine then
      .crashed PyErr.typeError
    else
      .raised (raiseErrorClass "NotFound" "No matching handler for URL found.")

/-- A handler descriptor: its callable attributes by name, each holding a
distinct hook identity (`callable(getattr(handler, a, None))` is true
exactly for the attributes present). -/
abbrev Handler := List (String × Nat)

/-- The five stage lists `Aspyre.find` accumulates, in the `OrderedDict`'s
insertion order `before, before_m, m, after_m, after`. -/
structure Stages (γ : Type) where
  before : List (Nat × γ)
  before_m : List (Nat × γ)
  method_m : List (Nat × γ)
  after_m : List (Nat × γ)
  after : List (Nat × γ)

/-- One iteration of the `for handler in found_handlers` loop of
`Aspyre.find`.  The first three stages append in match order; the last two
`insert(0, ...)`, producing reverse match order.  The `after_m` stage is
guarded by `callable(getattr(handler, after, None))` but the entry it
inserts is `getattr(handler, method)` — the plain method hook, with no
getattr default, so a handler exposing `after_m` without `m` raises
`AttributeError`. -/
def Aspyre.findStep {γ : Type} (method before_m after_m : String)
    (st : Stages γ) (hc : Handler × γ) : Except PyErr (Stages γ) := do
  let h := hc.1
  let args := hc.2
  let st := { st with
    before :=
      match lookupAssoc h "before" with
      | some f => st.before ++ [(f, args)]
      | none => st.before }
  let st := { st with
    before_m :=
      match lookupAssoc h before_m with
      | some f => st.before_m ++ [(f, args)]
      | none => st.before_m }
  let st := { st with
    method_m :=
      match lookupAssoc h method with
      | some f => st.method_m ++ [(f, args)]
      | none => st.method_m }
  let st ←
    match lookupAssoc h after_m with
    | some _ =>
        match lookupAssoc h method with
        | some f => pure { st with after_m := (f, args) :: st.after_m }
        | none => Except.error PyErr.attributeError
    | none => pure st
  let st := { st with
    after :=
      match lookupAssoc h "after" with
      | some f => (f, args) :: st.after
      | none => st.after }
  return st

/-- Method `Aspyre.find` given the url class's match list `found_handlers`:
`None` on a falsy (empty) match list, otherwise the five stage lists
flattened in the `OrderedDict`'s insertion order.  (For an actual HTTP
method the five keys `before, before_m, m, after_m, after` are distinct;
the model assumes that, as every call site does.) -/
def Aspyre.findChain {γ : Type} (method : String)
    (found_handlers : List (Handler × γ)) :
    Except PyErr (Option (List (Nat × γ))) := do
  if found_handlers.isEmpty then
    return none
  else
    let before_m := "before_" ++ method
    let after_m := "after_" ++ method
    let st ← found_handlers.foldlM (Aspyre.findStep method before_m after_m)
      ⟨[], [], [], [], []⟩
    return some (st.before ++ st.before_m ++ st.method_m ++ st.after_m ++ st.after)

/-- What one hook invocation `await handler(context, ...)` does, as seen by
the `handle` loop: return a value (an `int` is recorded as the context's
`http_code`; `None` — or any other non-`int`, which the `isinstance` guard
treats identically — is not), or raise an `error.Error`, or raise some
other exception. -/
inductive HookResult where
  | ret (r : Option Int)
  | raiseDomain (e : Error)
  | raiseOther
  deriving DecidableEq, Repr

/-- Outcome of the `handle` chain loop over a request context. -/
inductive HandleOutcome where
  | finished (ctx : List (String × Int))
  | crashed (err : PyErr) (ctx : List (String × Int))
  deriving DecidableEq, Repr

/-- The chain-execution loop of `Aspyre.handle` (the `for key, value in
handlers.items(): for handler in value:` body), over the flattened chain.

The `except` machinery is dead code: `handle` assigns
`error = self.dict_class()` inside the first `except` block, which makes
`error` a local variable of the whole function and shadows the imported
`error` module.  When a hook raises anything, Python evaluates the clause
expression `error.Error` first — reading the still-unbound local — so an
`UnboundLocalError` replaces the in-flight exception and propagates; the
`reraise` dispatch, the context merge and the `except Exception` clause
below it are all unreachable.  The loop therefore only ever completes
normally (recording `int` return values as `context['http_code']`) or
aborts with `UnboundLocalError` at the first raising hook. -/
def Aspyre.handleLoop :
    List HookResult → List (String × Int) → HandleOutcome
  | [], ctx => .finished ctx
  | HookResult.ret none :: rest, ctx => Aspyre.handleLoop rest ctx
  | HookResult.ret (some n) :: rest, ctx =>
      Aspyre.handleLoop rest (updateAssoc ctx "http_code" n)
  | HookResult.raiseDomain _ :: _, ctx => .crashed .unboundLocalError ctx
  | HookResult.raiseOther :: _, ctx => .crashed .unboundLocalError ctx

/- ## url_class.py -/

/-- Converted URL-argument values: the results of the conversion callables
a type tag can name (`str`, `str.lower`, `str.upper`, `int`, `float`,
`datetime.date`, `datetime.datetime.fromtimestamp`, `uuid.UUID`,
urlsafe-base64 text). -/
inductive PyArg where
  | s (v : String)
  | i (n : Int)
  | f (raw : String)
  | date (y m d : Int)
  | timestamp (n : Int)
  | uuid (v : String)
  | b64 (v : String)
  deriving DecidableEq, Repr

/-- A conversion callable as used at the `find` call sites: raw captured
text to a converted value, or a raised exception. -/
abbrev ConvFn := String → Except PyErr PyArg

/-- Python `int(s)` on the decimal strings URL captures produce: an
optional sign followed by digits, `ValueError` otherwise. -/
def pyIntConv (s : String) : Except PyErr Int :=
  let core := if s.startsWith "+" then s.drop 1 else s
  if core ≠ "" && (core.startsWith "-" → core.drop 1 ≠ "") &&
      (core.toList.enum.all fun ic =>
        ic.2.isDigit || (ic.1 = 0 && ic.2 = '-')) then
    match core.toInt? with
    | some n => .ok n
    | none => .error .valueError
  else .error .valueError

/-- Conversion `int`: wrap `pyIntConv`. -/
def convInt : ConvFn := fun s => (pyIntConv s).map PyArg.i

/-- Conversion `str`. -/
def convStr : ConvFn := fun s => .ok (PyArg.s s)

/-- Conversion `str.lower`. -/
def convStrLower : ConvFn := fun s => .ok (PyArg.s (pyLower s))

/-- Conversion `str.upper`. -/
def convStrUpper : ConvFn := fun s => .ok (PyArg.s (pyUpper s))

/-- Conversion `float(s)` on decimal forms (optional sign, digits, optional
fractional part); the value is kept as its accepted text since no claim
inspects float arithmetic. -/
def convFloat : ConvFn := fun s =>
  let core := if s.startsWith "+" || s.startsWith "-" then s.drop 1 else s
  if core ≠ "" && core.toList.all (fun c => c.isDigit || c = '.') &&
      (core.toList.filter (· = '.')).length ≤ 1 && core ≠ "." then
    .ok (PyArg.f s)
  else .error .valueError

/-- Conversion `lambda s: datetime.date(*map(int, s.split('-')))`: split on
`-`, convert each part with `int`, and build a date — `TypeError` on an
arity other than three, `ValueError` on a non-numeric part or an
out-of-range component (as `datetime.date` raises). -/
def convDate : ConvFn := fun s => do
  let parts ← (s.splitOn "-").mapM pyIntConv
  match parts with
  | [y, m, d] =>
      if 1 ≤ y ∧ 1 ≤ m ∧ m ≤ 12 ∧ 1 ≤ d ∧ d ≤ 31 then
        .ok (PyArg.date y m d)
      else .error .valueError
  | _ => .error .typeError

/-- Conversion `lambda s: datetime.datetime.fromtimestamp(int(s))`. -/
def convTimestamp : ConvFn := fun s => (pyIntConv s).map PyArg.timestamp

/-- Conversion `uuid.UUID(s)` on the canonical hyphenated form (36
characters of hex digits and hyphens); richer accepted spellings of the
constructor are outside what any claim exercises. -/
def convUuid : ConvFn := fun s =>
  if s.length = 36 &&
      s.toList.all (fun c =>
        c.isDigit || ('a' ≤ c.toLower && c.toLower ≤ 'f') || c = '-') then
    .ok (PyArg.uuid (pyLower s))
  else .error .valueError

/-- Conversion `lambda s: str(base64.urlsafe_b64decode(s), 'ascii')`:
accept urlsafe-alphabet text of whole-quad length, keeping the accepted
text (no claim inspects the decoded bytes). -/
def convBase64 : ConvFn := fun s =>
  if s.length % 4 = 0 &&
      s.toList.all (fun c => c.isAlphanum || c = '-' || c = '_' || c = '=') then
    .ok (PyArg.b64 s)
  else .error .valueError

/-- Table `__default_types__` at the top of `url_class.py` — defined by the
module and, notably, referenced by nothing else in it. -/
def default_types : List (String × ConvFn) :=
  [("str", convStr), ("strl", convStrLower), ("stru", convStrUpper),
   ("int", convInt), ("float", convFloat), ("date", convDate),
   ("timestamp", convTimestamp), ("uuid", convUuid), ("base64", convBase64)]

/-- The namespace `globals()['__builtins__']` that `Regex.find` falls back
to — the Python builtins, a dict in an imported module.  Modelled on the
bindings a type tag could name: the castable callables (`str`, `int`,
`float`) map to their conversions, the non-callable constant `None` is
kept (it is falsy, reaching the dead `raise AttributeError` arm), and
every name the builtins namespace does not define — in particular `date`,
`timestamp`, `uuid` and `base64` — is absent, so subscripting raises
`KeyError`. -/
def python_builtins : List (String × Option ConvFn) :=
  [("str", some convStr), ("int", some convInt), ("float", some convFloat),
   ("None", none)]

/-- Constant `Regex.__separator__`, the mangling workaround spliced between
type and name inside a capture group's name. -/
def Regex.separator : String := "0_d_collis_1"

/-- A compiled pattern, abstracted as its `re.fullmatch` semantics: `some
groupdict` exactly on a full match of the entire subject string (the spec
allows delegating to any text-pattern engine, so the engine itself is not
re-modelled). -/
structure CompiledPat where
  fullmatch : String → Option (List (String × String))

/-- A literal pattern with no capture groups: `re.fullmatch` succeeds
exactly on the identical string. -/
def litPat (lit : String) : CompiledPat :=
  ⟨fun t => if t = lit then some [] else none⟩

/-- A single-capture pattern: on exactly `lit`, a full match whose
groupdict binds the mangled group name to the capture. -/
def capPat (lit : String) (groups : List (String × String)) : CompiledPat :=
  ⟨fun t => if t = lit then some groups else none⟩

/-- An entry of `Regex.__url_list`: `((host, path), cls)` with the two
optional compiled matchers and the handler class, identified by a number. -/
structure Route where
  host : Option CompiledPat
  path : Option CompiledPat
  cls : Nat

/-- Values as compared by the `cls not in handlers` membership test of
`Regex.find`: the probe is the handler class object, the list elements are
`(cls, ret_args)` tuples. -/
inductive FindListVal where
  | clsRef (c : Nat)
  | resultPair (c : Nat) (args : List (String × PyArg))
  deriving DecidableEq, Repr

/-- Python `==` across these values: tuples compare componentwise with
tuples, class objects by identity with class objects, and a class object
compared against a tuple is simply unequal (both `__eq__`s return
`NotImplemented`, so Python falls back to identity). -/
def pyEqVal : FindListVal → FindListVal → Bool
  | .clsRef a, .clsRef b => a = b
  | .resultPair a x, .resultPair b y => a = b && x = y
  | _, _ => false

/-- One capture's conversion inside `Regex.find`:
`t, name = key.split(Regex.__separator__)` (a `ValueError` unless the split
has exactly two parts), then `self.__types[t]` when the tag is registered,
else `globals()['__builtins__'][t]` (a `KeyError` when absent), whose value
feeds the `if func:` test — falsy reaches the `raise AttributeError` arm —
before being applied to the captured text. -/
def convertCapture (types : List (String × ConvFn)) (key value : String) :
    Except PyErr (String × PyArg) :=
  match pySplit key Regex.separator with
  | [t, name] =>
      match lookupAssoc types t with
      | some f =>
          match f value with
          | .error e => .error e
          | .ok v => .ok (name, v)
      | none =>
          match lookupAssoc python_builtins t with
          | some (some f) =>
              match f value with
              | .error e => .error e
              | .ok v => .ok (name, v)
          | some none => .error .attributeError
          | none => .error (.keyError t)
  | _ => .error .valueError

/-- The `ret_args` accumulation of `Regex.find`: convert each capture in
groupdict order, writing `ret_args[name] = value`. -/
def convertCapturesAux (types : List (String × ConvFn)) :
    List (String × String) → List (String × PyArg) →
    Except PyErr (List (String × PyArg))
  | [], ret => .ok ret
  | kv :: rest, ret =>
      match convertCapture types kv.1 kv.2 with
      | .error e => .error e
      | .ok (name, v) => convertCapturesAux types rest (updateAssoc ret name v)

def convertCaptures (types : List (String × ConvFn))
    (args : List (String × String)) : Except PyErr (List (String × PyArg)) :=
  convertCapturesAux types args []

/-- The body of `Regex.find`'s route loop, threading the `handlers`
accumulator.  Per route: full-match the host pattern (when present)
against the host and the path pattern (when present) against the path,
merge the groupdicts of whichever matched, and — `if m1 or m2:`, i.e. when
at least one matcher matched — convert the captures and append
`(cls, ret_args)` unless the membership test `cls not in handlers` (which
compares the class object against the stored tuples, per `pyEqVal`) says
the class is already there. -/
def Regex.findAux (types : List (String × ConvFn)) (host path : String) :
    List Route → List (Nat × List (String × PyArg)) →
    Except PyErr (List (Nat × List (String × PyArg)))
  | [], handlers => .ok handlers
  | r :: rest, handlers =>
      let m1 := match r.host with
        | some p => p.fullmatch host
        | none => none
      let m2 := match r.path with
        | some p => p.fullmatch path
        | none => none
      let args := updateAll
        (match m1 with | some g => g | none => [])
        (match m2 with | some g => g | none => [])
      if m1.isSome || m2.isSome then
        match convertCaptures types args with
        | .error e => .error e
        | .ok ret =>
            let handlers' :=
              if handlers.any fun e =>
                  pyEqVal (FindListVal.clsRef r.cls) (FindListVal.resultPair e.1 e.2)
              then handlers
              else handlers ++ [(r.cls, ret)]
            Regex.findAux types host path rest handlers'
      else
        Regex.findAux types host path rest handlers

/-- Method `Regex.find(host, path)` over the registered url list, with
`self.__types` the caller-supplied registry (`Regex.__init__` stores `{}`
when none is given; `__default_types__` is never consulted). -/
def Regex.find (types : List (String × ConvFn)) (url_list : List Route)
    (host path : String) : Except PyErr (List (Nat × List (String × PyArg))) :=
  Regex.findAux types host path url_list []

/- ## Association-list lemmas -/

/-- Writing a key makes it readable: `lookupAssoc (updateAssoc d k v) k = some v`. -/
theorem lookupAssoc_updateAssoc_self {β : Type} (d : List (String × β))
    (k : String) (v : β) : lookupAssoc (updateAssoc d k v) k = some v := by
  induction d with
  | nil => simp [updateAssoc, lookupAssoc]
  | cons kv rest ih =>
      obtain ⟨k0, w0⟩ := kv
      by_cases h : k0 = k
      · simp [updateAssoc, lookupAssoc, h]
      · simp [updateAssoc, lookupAssoc, h, ih]

/-- Lookup skips a prefix that does not carry the key. -/
theorem lookupAssoc_append_right {β : Type} (xs ys : List (String × β))
    (k : String) (h : k ∉ xs.map Prod.fst) :
    lookupAssoc (xs ++ ys) k = lookupAssoc ys k := by
  induction xs with
  | nil => rfl
  | cons kv rest ih =>
      obtain ⟨k0, w0⟩ := kv
      simp only [List.map_cons, List.mem_cons, not_or] at h
      simp [lookupAssoc, Ne.symm h.1, ih h.2]

/-- Deletion skips a prefix that does not carry the key. -/
theorem eraseAssoc_append_right {β : Type} (xs ys : List (String × β))
    (k : String) (h : k ∉ xs.map Prod.fst) :
    eraseAssoc (xs ++ ys) k = xs ++ eraseAssoc ys k := by
  induction xs with
  | nil => rfl
  | cons kv rest ih =>
      obtain ⟨k0, w0⟩ := kv
      simp only [List.map_cons, List.mem_cons, not_or] at h
      simp [eraseAssoc, Ne.symm h.1, ih h.2]

/-- Deleting the entry at a key leaves the other-keyed entries alone. -/
theorem filter_ne_eraseAssoc {β : Type} (d : List (String × β)) (k : String) :
    (eraseAssoc d k).filter (fun kv => kv.1 ≠ k) =
      d.filter (fun kv => kv.1 ≠ k) := by
  induction d with
  | nil => rfl
  | cons kv rest ih =>
      obtain ⟨k0, w0⟩ := kv
      by_cases h : k0 = k
      · simp [eraseAssoc, h]
      · simp only [eraseAssoc, if_neg h, List.filter_cons]
        rw [ih]

/-- Computation of `save` on a store whose reserved slot holds `l`. -/
theorem save_of_lookup {α : Type} (s : Store α) (l : List (DVal α))
    (h : lookupAssoc s "__history" = some (DVal.histList l)) :
    AspyreDictHistory.save s =
      .ok (updateAssoc s "__history"
        (DVal.histList (l ++ [DVal.snapObj (AspyreDictHistory.snapshotOf s l)])),
        l.length + 1) := by
  simp [AspyreDictHistory.save, historySlot, h]

/- ## Concrete fixtures -/

/-- Handler `A` of the spec's chain example, exposing every get-family
hook; the numbers identify the five distinct hook functions. -/
def handlerA : Handler :=
  [("before", 1), ("before_get", 2), ("get", 3), ("after_get", 4), ("after", 5)]

/-- Handler `B` of the spec's chain example. -/
def handlerB : Handler :=
  [("before", 11), ("before_get", 12), ("get", 13), ("after_get", 14), ("after", 15)]

/- ## Claim theorems -/

/-- C1.  The five-stage chain built by `Aspyre.find` for method `get`
over handlers `[A, B]` that expose all get-family hooks. The first three
stages and the reversed global `after` stage come out as the claim says,
but the fourth stage holds `B.get, A.get` — `Aspyre.find` inserts
`getattr(handler, method)` under the `after_get` key — although both
handlers expose distinct `after_get` hooks (`4` and `14`), so the chain
the claim predicts (with `B.after_get, A.after_get` in stage four) is not
the one produced. -/
theorem c1_after_method_stage_invokes_method_hook :
    Aspyre.findChain "get" [(handlerA, ()), (handlerB, ())] =
      .ok (some [(1, ()), (11, ()), (2, ()), (12, ()), (3, ()), (13, ()),
        (13, ()), (3, ()), (15, ()), (5, ())]) ∧
    lookupAssoc handlerA "after_get" = some 4 ∧
    lookupAssoc handlerB "after_get" = some 14 ∧
    [(1, ()), (11, ()), (2, ()), (12, ()), (3, ()), (13, ()),
        (13, ()), (3, ()), (15, ()), (5, ())] ≠
      [((1 : Nat), ()), (11, ()), (2, ()), (12, ()), (3, ()), (13, ()),
        (14, ()), (4, ()), (15, ()), (5, ())] := by
  refine ⟨rfl, rfl, rfl, ?_⟩
  decide

/-- C2.  Chain execution against the `handle` loop: a hook raising a
`DomainError` with `reraise=False` does not get its fields merged into the
context, and the next chain entry never runs — the loop aborts with
`UnboundLocalError` (the local `error` dict assigned inside the first
`except` block shadows the imported `error` module, so evaluating the
clause expression `except error.Error` crashes before either policy
branch).  A `reraise=True` error crashes identically instead of being
encoded and returned. -/
theorem c2_domain_error_policy_unreachable :
    Aspyre.handleLoop
        [HookResult.raiseDomain
          { http_code := 403, error_code := none, message := some "denied",
            short_name := none, reraise := false },
         HookResult.ret (some 200)] [] =
      .crashed .unboundLocalError [] ∧
    Aspyre.handleLoop
        [HookResult.raiseDomain
          { http_code := 500, error_code := none, message := none,
            short_name := none, reraise := true }] [] =
      .crashed .unboundLocalError [] := ⟨rfl, rfl⟩

/-- C3.  `Aspyre.__call__` evaluated at the claim's inputs.  `options`
(outside the supported set) raises the 501-class `NotImplemented` as
claimed — but so does `head`, which the claim places inside the set:
`Methods['http_methods']` is `[get, post, put, patch, delete]` and nothing
calls the head-to-get translation in `__fix_params__`.  And for a
supported method the claimed 404 `NotFound` on no matching route is
unreachable: `handlers` is the un-awaited `find` coroutine, truthy for
every possible pending value, so dispatch never takes the `NotFound` arm
for any method and any `handlers` value, and instead dies with the
`TypeError` of the wrong-arity `self.handle` call. -/
theorem c3_not_found_branch_unreachable :
    Aspyre.call "options" (PyCallResult.coroutine (0 : Nat)) =
      .raised
        (raiseErrorClass "NotImplemented" "The server does not support this HTTP method.") ∧
    Aspyre.call "head" (PyCallResult.coroutine (0 : Nat)) =
      .raised
        (raiseErrorClass "NotImplemented" "The server does not support this HTTP method.") ∧
    (raiseErrorClass "NotImplemented" "The server does not support this HTTP method.").http_code
        = 501 ∧
    ¬ (501 : Nat) = 404 ∧
    Aspyre.call "get" (PyCallResult.coroutine (0 : Nat)) =
      .crashed PyErr.typeError ∧
    (∀ (β : Type) (handlers : PyCallResult β), pyTruthy handlers = true) ∧
    (∀ (β : Type) (handlers : PyCallResult β) (method : String),
      Aspyre.call method handlers ≠
        .raised (raiseErrorClass "NotFound" "No matching handler for URL found.")) := by
  refine ⟨rfl, rfl, rfl, by decide, rfl, fun β handlers => by cases handlers; rfl, ?_⟩
  intro β handlers method hEq
  by_cases hm : http_methods.contains method = true
  · cases handlers
    unfold Aspyre.call at hEq
    rw [hm] at hEq
    simp [pyTruthy] at hEq
  · have hc : http_methods.contains method = false := by
      simpa using hm
    unfold Aspyre.call at hEq
    rw [hc] at hEq
    simp only [Bool.false_eq_true, not_false_eq_true, if_true,
      CallOutcome.raised.injEq] at hEq
    have : (raiseErrorClass "NotImplemented"
        "The server does not support this HTTP method.") ≠
        (raiseErrorClass "NotFound" "No matching handler for URL found.") := by
      decide
    exact this hEq

/-- C4.  For every versioned context whose reserved slot holds a history
list (and is that slot's only occurrence, as every Python dict guarantees):
`save()` appends the snapshot — a copy of the current state minus the live
history slot, carrying the pre-save history — and returns the new version
count `l.length + 1`; an immediate `rollback()` with the default version
`-1` then succeeds and restores a context whose non-reserved entries equal
the originals key for key and value for value, with the pre-save history
tail back in place. -/
theorem c4_save_then_rollback_restores {α : Type} (store : Store α)
    (l : List (DVal α))
    (h1 : lookupAssoc store "__history" = some (DVal.histList l))
    (h2 : "__history" ∉ (eraseAssoc store "__history").map Prod.fst) :
    ∃ s' s'',
      AspyreDictHistory.save store = .ok (s', l.length + 1) ∧
      lookupAssoc s' "__history" =
        some (DVal.histList
          (l ++ [DVal.snapObj (AspyreDictHistory.snapshotOf store l)])) ∧
      AspyreDictHistory.rollback s' (-1) = .ok s'' ∧
      dataPart s'' = dataPart store ∧
      lookupAssoc s'' "__history" = some (DVal.histList l) := by
  have hsave : AspyreDictHistory.save store =
      .ok (updateAssoc store "__history"
        (DVal.histList
          (l ++ [DVal.snapObj (AspyreDictHistory.snapshotOf store l)])),
        l.length + 1) := by
    simp [AspyreDictHistory.save, historySlot, h1]
  refine ⟨_, eraseAssoc store "__history" ++ [("__history", DVal.histList l)],
    hsave, lookupAssoc_updateAssoc_self .., ?_, ?_, ?_⟩
  · -- rollback on the freshly saved store
    have hslot := lookupAssoc_updateAssoc_self store "__history"
      (DVal.histList
        (l ++ [DVal.snapObj (AspyreDictHistory.snapshotOf store l)]))
    have hget : pyListGet
        (l ++ [DVal.snapObj (AspyreDictHistory.snapshotOf store l)]) (-1) =
        some (DVal.snapObj (AspyreDictHistory.snapshotOf store l)) := by
      simp [pyListGet, List.getElem?_append_right]
    have hlook : lookupAssoc (AspyreDictHistory.snapshotOf store l)
        "__history" = some (DVal.histList l) := by
      unfold AspyreDictHistory.snapshotOf
      rw [lookupAssoc_append_right _ _ _ h2]
      simp [lookupAssoc]
    have herase : eraseAssoc (AspyreDictHistory.snapshotOf store l)
        "__history" = eraseAssoc store "__history" := by
      unfold AspyreDictHistory.snapshotOf
      rw [eraseAssoc_append_right _ _ _ h2]
      simp [eraseAssoc]
    simp only [AspyreDictHistory.rollback, hslot, historySlot, hget, hlook,
      herase]
  · -- the restored non-reserved entries equal the originals
    unfold dataPart
    rw [List.filter_append, filter_ne_eraseAssoc]
    simp
  · -- the pre-save history tail is restored
    rw [lookupAssoc_append_right _ _ _ h2]
    simp [lookupAssoc]

/-- C4 witness: the round-trip evaluated on the concrete context
`{'__history': [self], 'x': 1}`. -/
theorem c4_save_then_rollback_restores_witness :
    lookupAssoc [("__history", DVal.histList [DVal.selfref]),
        ("x", DVal.prim (1 : Nat))] "__history" =
      some (DVal.histList [DVal.selfref]) ∧
    "__history" ∉
      (eraseAssoc [("__history", DVal.histList [DVal.selfref]),
        ("x", DVal.prim (1 : Nat))] "__history").map Prod.fst ∧
    ∃ s' s'',
      AspyreDictHistory.save [("__history", DVal.histList [DVal.selfref]),
          ("x", DVal.prim (1 : Nat))] = .ok (s', 2) ∧
      lookupAssoc s' "__history" =
        some (DVal.histList
          ([DVal.selfref] ++ [DVal.snapObj (AspyreDictHistory.snapshotOf
            [("__history", DVal.histList [DVal.selfref]),
              ("x", DVal.prim (1 : Nat))] [DVal.selfref])])) ∧
      AspyreDictHistory.rollback s' (-1) = .ok s'' ∧
      dataPart s'' = dataPart [("__history", DVal.histList [DVal.selfref]),
        ("x", DVal.prim (1 : Nat))] ∧
      lookupAssoc s'' "__history" = some (DVal.histList [DVal.selfref]) :=
  ⟨rfl, by decide,
    c4_save_then_rollback_restores _ [DVal.selfref] rfl (by decide)⟩

/-- C5 counterexample.  On the versioned context (`AspyreDictHistory`,
the class the bundled codec supplies as the request context), setting
`context['Content-Type']` stores the raw key, and
`AspyreDictHistory.__find_key__` compares the normalized probe against the
raw stored key — so `context['contenttype']` (and even
`context['Content-Type']` itself) reads back `None`, not the stored
value. -/
theorem c5_history_context_lookup_misses :
    AspyreDictHistory.setitem (AspyreDictHistory.new String) "Content-Type"
        "application/json" =
      .ok [("__history", DVal.histList [DVal.selfref]),
        ("Content-Type", DVal.prim "application/json")] ∧
    AspyreDictHistory.getitem
        [("__history", DVal.histList [DVal.selfref]),
          ("Content-Type", DVal.prim "application/json")] "contenttype" = none ∧
    AspyreDictHistory.getitem
        [("__history", DVal.histList [DVal.selfref]),
          ("Content-Type", DVal.prim "application/json")] "Content-Type" = none :=
  ⟨rfl, rfl, rfl⟩

/-- C10.  A fresh versioned context initializes its history to `[self]` —
the live object aliased into its own history, `selfref` — so
`get_current_version()` is `1` before any `save()`; and for every `n`,
after `n` calls to `save()` the version is `n + 1`, while the next save
(the `(n+1)`-th) returns `n + 2` — i.e. each `save()` returns the version
count after its own append. -/
theorem c10_history_initialized_with_self (α : Type) :
    AspyreDictHistory.get_current_version (AspyreDictHistory.new α) = .ok 1 ∧
    lookupAssoc (AspyreDictHistory.new α) "__history" =
      some (DVal.histList [DVal.selfref]) ∧
    ∀ n : Nat, ∃ s l,
      AspyreDictHistory.saveIter (AspyreDictHistory.new α) n = .ok s ∧
      lookupAssoc s "__history" = some (DVal.histList l) ∧
      l.length = n + 1 ∧
      AspyreDictHistory.get_current_version s = .ok (n + 1) ∧
      ∃ t, AspyreDictHistory.save s = .ok (t, n + 2) := by
  refine ⟨rfl, rfl, ?_⟩
  intro n
  induction n with
  | zero => exact ⟨AspyreDictHistory.new α, [DVal.selfref], rfl, rfl, rfl, rfl, _, rfl⟩
  | succ n ih =>
      obtain ⟨s, l, hiter, hlook, hlen, -, -⟩ := ih
      have hsave2 : AspyreDictHistory.save s =
          .ok (updateAssoc s "__history"
            (DVal.histList
              (l ++ [DVal.snapObj (AspyreDictHistory.snapshotOf s l)])),
            l.length + 1) := by
        simp [AspyreDictHistory.save, historySlot, hlook]
      refine ⟨updateAssoc s "__history"
          (DVal.histList
            (l ++ [DVal.snapObj (AspyreDictHistory.snapshotOf s l)])),
        l ++ [DVal.snapObj (AspyreDictHistory.snapshotOf s l)],
        ?_, lookupAssoc_updateAssoc_self .., by simp [hlen], ?_, ?_⟩
      · simp [AspyreDictHistory.saveIter, hiter, hsave2]
      · simp [AspyreDictHistory.get_current_version, historySlot,
          lookupAssoc_updateAssoc_self, hlen, Except.map]
      · have h2 := save_of_lookup _ _ (lookupAssoc_updateAssoc_self s
          "__history" (DVal.histList
            (l ++ [DVal.snapObj (AspyreDictHistory.snapshotOf s l)])))
        rw [show n + 1 + 2 =
            (l ++ [DVal.snapObj (AspyreDictHistory.snapshotOf s l)]).length + 1
          by simp [hlen]]
        exact ⟨_, h2⟩

/-- C9.  Looking up a key that is not present under normalized-key
matching returns `None` rather than raising: `__getitem__` (defined on the
read-only `AspyreDictImmutable` and inherited unchanged by the mutable
`AspyreDict`, the two views of the context) has no exception path and
falls through to `None` when `__find_key__` reports the key absent. -/
theorem c9_missing_key_reads_none {α : Type} (store : Store α) (key : String)
    (h : ∀ kv ∈ store, normalize_key kv.1 ≠ normalize_key key) :
    AspyreDictImmutable.getitem store key = none := by
  have hfind : store.find?
      (fun kv => decide (normalize_key kv.1 = normalize_key key)) = none := by
    rw [List.find?_eq_none]
    intro kv hkv
    simp [h kv hkv]
  simp [AspyreDictImmutable.getitem, AspyreDictImmutable.find_key, hfind]

/-- C9 witness: a one-entry store probed with an unrelated key. -/
theorem c9_missing_key_reads_none_witness :
    (∀ kv ∈ ([("alpha", DVal.prim (1 : Nat))] : Store Nat),
      normalize_key kv.1 ≠ normalize_key "zz") ∧
    AspyreDictImmutable.getitem ([("alpha", DVal.prim (1 : Nat))] : Store Nat)
      "zz" = none :=
  ⟨by decide, c9_missing_key_reads_none _ _ (by decide)⟩

/-- Lookup through `AspyreDictImmutable.__getitem__` ignores a head entry
whose key normalizes differently from the probe. -/
theorem getitem_cons_of_norm_ne {α : Type} (k0 : String) (w : DVal α)
    (t : Store α) (k2 : String)
    (h : normalize_key k0 ≠ normalize_key k2) :
    AspyreDictImmutable.getitem ((k0, w) :: t) k2 =
      AspyreDictImmutable.getitem t k2 := by
  have hcons : List.find?
      (fun kv : String × DVal α =>
        decide (normalize_key kv.1 = normalize_key k2)) ((k0, w) :: t) =
      List.find?
        (fun kv : String × DVal α =>
          decide (normalize_key kv.1 = normalize_key k2)) t :=
    List.find?_cons_of_neg _ (by simp [h])
  unfold AspyreDictImmutable.getitem AspyreDictImmutable.find_key
  rw [hcons]
  cases hfind : t.find?
      (fun kv => decide (normalize_key kv.1 = normalize_key k2)) with
  | none => rfl
  | some kv =>
      have hkv := List.find?_some hfind
      have hne : k0 ≠ kv.1 := by
        intro hk
        apply h
        rw [hk]
        simpa using hkv
      simp [lookupAssoc, hne]

/-- Setting through one spelling of a key and reading through another
agree on `AspyreDict` whenever the two spellings normalize alike. -/
theorem setitem_getitem_normalized {α : Type} (store : Store α)
    (k1 k2 : String) (v : α) (h : normalize_key k1 = normalize_key k2) :
    AspyreDictImmutable.getitem (AspyreDict.setitem store k1 v) k2 =
      some (DVal.prim v) := by
  induction store with
  | nil =>
      simp [AspyreDict.setitem, AspyreDictImmutable.find_key, updateAssoc,
        AspyreDictImmutable.getitem, List.find?, h, lookupAssoc]
  | cons kv rest ih =>
      obtain ⟨k0, w0⟩ := kv
      by_cases h0 : normalize_key k0 = normalize_key k1
      · have hfindc : List.find?
            (fun kv : String × DVal α =>
              decide (normalize_key kv.1 = normalize_key k1))
            ((k0, w0) :: rest) = some (k0, w0) :=
          List.find?_cons_of_pos _ (by simp [h0])
        have hfindc2 : List.find?
            (fun kv : String × DVal α =>
              decide (normalize_key kv.1 = normalize_key k2))
            ((k0, DVal.prim v) :: rest) = some (k0, DVal.prim v) :=
          List.find?_cons_of_pos _ (by simp [h0.trans h])
        have hset : AspyreDict.setitem ((k0, w0) :: rest) k1 v =
            (k0, DVal.prim v) :: rest := by
          unfold AspyreDict.setitem AspyreDictImmutable.find_key
          rw [hfindc]
          simp [updateAssoc]
        rw [hset]
        unfold AspyreDictImmutable.getitem AspyreDictImmutable.find_key
        rw [hfindc2]
        simp [lookupAssoc]
      · have hconsf : List.find?
            (fun kv : String × DVal α =>
              decide (normalize_key kv.1 = normalize_key k1))
            ((k0, w0) :: rest) =
            List.find?
              (fun kv : String × DVal α =>
                decide (normalize_key kv.1 = normalize_key k1)) rest :=
          List.find?_cons_of_neg _ (by simp [h0])
        have hne : k0 ≠ (AspyreDictImmutable.find_key rest k1).2 := by
          unfold AspyreDictImmutable.find_key
          cases hfind : rest.find?
              (fun kv => decide (normalize_key kv.1 = normalize_key k1)) with
          | none =>
              intro hk
              exact h0 (by rw [hk])
          | some kv' =>
              have hkv' := List.find?_some hfind
              intro hk
              apply h0
              rw [hk]
              simpa using hkv'
        have hset : AspyreDict.setitem ((k0, w0) :: rest) k1 v =
            (k0, w0) :: AspyreDict.setitem rest k1 v := by
          unfold AspyreDict.setitem AspyreDictImmutable.find_key
          rw [hconsf]
          unfold AspyreDictImmutable.find_key at hne
          cases hfind : rest.find?
              (fun kv => decide (normalize_key kv.1 = normalize_key k1)) with
          | none =>
              rw [hfind] at hne
              simp [updateAssoc, if_neg hne]
          | some kv' =>
              rw [hfind] at hne
              simp [updateAssoc, if_neg hne]
        rw [hset, getitem_cons_of_norm_ne k0 w0 _ k2 (h ▸ h0), ih]

/-- C5 amended.  On the plain mutable context `AspyreDict` (where
`__find_key__` normalizes both sides), two key spellings that reduce to
the same letter sequence do address one slot: `__find_key__` reports the
same found flag and the same stored raw key for both, and a value set
through one spelling reads back through the other.  On the versioned
`AspyreDictHistory` context the property fails (its `__find_key__`
compares the normalized probe to the raw stored key), as the
counterexample theorem shows. -/
theorem c5_normalized_keys_share_slot {α : Type} (store : Store α)
    (k1 k2 : String) (v : α) (h : normalize_key k1 = normalize_key k2) :
    (AspyreDictImmutable.find_key store k1).1 =
      (AspyreDictImmutable.find_key store k2).1 ∧
    ((AspyreDictImmutable.find_key store k1).1 = true →
      (AspyreDictImmutable.find_key store k1).2 =
        (AspyreDictImmutable.find_key store k2).2) ∧
    AspyreDictImmutable.getitem (AspyreDict.setitem store k1 v) k2 =
      some (DVal.prim v) := by
  have hp : (fun kv : String × DVal α =>
        decide (normalize_key kv.1 = normalize_key k1)) =
      (fun kv : String × DVal α =>
        decide (normalize_key kv.1 = normalize_key k2)) := by
    funext kv
    rw [h]
  refine ⟨?_, ?_, setitem_getitem_normalized store k1 k2 v h⟩ <;>
    · unfold AspyreDictImmutable.find_key
      rw [hp]
      cases store.find?
          (fun kv => decide (normalize_key kv.1 = normalize_key k2)) <;> simp

/-- C5 amended witness: the `Content-Type` slash `contenttype` example on
an `AspyreDict`. -/
theorem c5_normalized_keys_share_slot_witness :
    normalize_key "Content-Type" = normalize_key "contenttype" ∧
    ((AspyreDictImmutable.find_key ([] : Store String) "Content-Type").1 =
      (AspyreDictImmutable.find_key ([] : Store String) "contenttype").1 ∧
    ((AspyreDictImmutable.find_key ([] : Store String) "Content-Type").1 = true →
      (AspyreDictImmutable.find_key ([] : Store String) "Content-Type").2 =
        (AspyreDictImmutable.find_key ([] : Store String) "contenttype").2) ∧
    AspyreDictImmutable.getitem
      (AspyreDict.setitem ([] : Store String) "Content-Type" "application/json")
      "contenttype" = some (DVal.prim "application/json")) :=
  ⟨rfl, c5_normalized_keys_share_slot [] "Content-Type" "contenttype"
    "application/json" rfl⟩

/-- Fixtures for the C7 witness: capture-carrying host and path patterns. -/
def hostCapC7 : CompiledPat :=
  capPat "h" [("str" ++ Regex.separator ++ "u", "h")]

/-- Capture-carrying path pattern for the C7 witness. -/
def pathCapC7 : CompiledPat :=
  capPat "b" [("str" ++ Regex.separator ++ "w", "b")]

/-- C7 amended.  For a route carrying both a host matcher and a path
matcher, a `(host, path)` input is considered a match when at least one of
the two matchers fully matches its entire component — `re.fullmatch`, so a
prefix match of either component counts as a failure — and only an input
for which both parts fail to match contributes nothing.  The four
conjuncts cover every combination of the two matchers over arbitrary
groupdicts `g1`, `g2` and an arbitrary type registry: when the guard
`if m1 or m2:` passes, the groupdicts of whichever components matched are
merged (`args.update`, path entries overriding host entries on a shared
group name) and converted, a conversion failure propagating as the find
result and a success contributing the handler's single MatchResult. -/
theorem c7_match_when_either_component_matches
    (types : List (String × ConvFn)) (p q : CompiledPat) (c : Nat)
    (host path : String) :
    (p.fullmatch host = none → q.fullmatch path = none →
      Regex.find types [⟨some p, some q, c⟩] host path = .ok []) ∧
    (∀ g1, p.fullmatch host = some g1 → q.fullmatch path = none →
      Regex.find types [⟨some p, some q, c⟩] host path =
        match convertCaptures types (updateAll g1 []) with
        | .error e => .error e
        | .ok ret => .ok [(c, ret)]) ∧
    (∀ g2, p.fullmatch host = none → q.fullmatch path = some g2 →
      Regex.find types [⟨some p, some q, c⟩] host path =
        match convertCaptures types (updateAll [] g2) with
        | .error e => .error e
        | .ok ret => .ok [(c, ret)]) ∧
    (∀ g1 g2, p.fullmatch host = some g1 → q.fullmatch path = some g2 →
      Regex.find types [⟨some p, some q, c⟩] host path =
        match convertCaptures types (updateAll g1 g2) with
        | .error e => .error e
        | .ok ret => .ok [(c, ret)]) := by
  refine ⟨fun h1 h2 => ?_, fun g1 h1 h2 => ?_, fun g2 h1 h2 => ?_,
    fun g1 g2 h1 h2 => ?_⟩
  · simp [Regex.find, Regex.findAux, h1, h2]
  · simp only [Regex.find, Regex.findAux, h1, h2]
    cases hc : convertCaptures types (updateAll g1 []) with
    | error e => simp [hc]
    | ok ret => simp [hc, Regex.findAux]
  · simp only [Regex.find, Regex.findAux, h1, h2]
    cases hc : convertCaptures types (updateAll [] g2) with
    | error e => simp [hc]
    | ok ret => simp [hc, Regex.findAux]
  · simp only [Regex.find, Regex.findAux, h1, h2]
    cases hc : convertCaptures types (updateAll g1 g2) with
    | error e => simp [hc]
    | ok ret => simp [hc, Regex.findAux]

/-- C7 amended witness: the four matcher combinations evaluated
concretely — both fail, host-only with a converted capture, path-only with
a converted capture, and both matching with the two groupdicts merged into
one MatchResult. -/
theorem c7_match_when_either_component_matches_witness :
    ((litPat "a").fullmatch "x" = none ∧ (litPat "b").fullmatch "y" = none ∧
      Regex.find [] [⟨some (litPat "a"), some (litPat "b"), 3⟩] "x" "y" =
        .ok []) ∧
    (hostCapC7.fullmatch "h" =
        some [("str" ++ Regex.separator ++ "u", "h")] ∧
      (litPat "b").fullmatch "y" = none ∧
      Regex.find [] [⟨some hostCapC7, some (litPat "b"), 3⟩] "h" "y" =
        .ok [(3, [("u", PyArg.s "h")])]) ∧
    ((litPat "a").fullmatch "x" = none ∧
      pathCapC7.fullmatch "b" =
        some [("str" ++ Regex.separator ++ "w", "b")] ∧
      Regex.find [] [⟨some (litPat "a"), some pathCapC7, 3⟩] "x" "b" =
        .ok [(3, [("w", PyArg.s "b")])]) ∧
    (hostCapC7.fullmatch "h" =
        some [("str" ++ Regex.separator ++ "u", "h")] ∧
      pathCapC7.fullmatch "b" =
        some [("str" ++ Regex.separator ++ "w", "b")] ∧
      Regex.find [] [⟨some hostCapC7, some pathCapC7, 3⟩] "h" "b" =
        .ok [(3, [("u", PyArg.s "h"), ("w", PyArg.s "b")])]) :=
  ⟨⟨rfl, rfl,
      (c7_match_when_either_component_matches [] (litPat "a") (litPat "b") 3
        "x" "y").1 rfl rfl⟩,
    ⟨rfl, rfl,
      (c7_match_when_either_component_matches [] hostCapC7 (litPat "b") 3
        "h" "y").2.1 [("str" ++ Regex.separator ++ "u", "h")] rfl rfl⟩,
    ⟨rfl, rfl,
      (c7_match_when_either_component_matches [] (litPat "a") pathCapC7 3
        "x" "b").2.2.1 [("str" ++ Regex.separator ++ "w", "b")] rfl rfl⟩,
    ⟨rfl, rfl,
      (c7_match_when_either_component_matches [] hostCapC7 pathCapC7 3
        "h" "b").2.2.2 [("str" ++ Regex.separator ++ "u", "h")]
        [("str" ++ Regex.separator ++ "w", "b")] rfl rfl⟩⟩

/-- C6.  One handler (class `7`) registered under two templates that both
match the request: `Regex.find` returns it twice.  The dedup guard
`if cls not in handlers:` compares the class object against the
accumulated `(cls, ret_args)` tuples, which is always false, so —
contrary to the comment right above it — a multiply-matched handler is
appended once per matching template. -/
theorem c6_dedup_guard_never_fires :
    Regex.find [] [⟨none, some (litPat "products"), 7⟩,
        ⟨none, some (litPat "products"), 7⟩] "" "products" =
      .ok [(7, []), (7, [])] ∧
    pyEqVal (FindListVal.clsRef 7) (FindListVal.resultPair 7 []) = false :=
  ⟨rfl, rfl⟩

/-- C7 counterexample.  A route carrying both a host matcher and a path
matcher, on an input whose host fully matches but whose path does not:
the claim says such an input contributes nothing, but the guard is
`if m1 or m2:`, so the handler is returned on the strength of the host
match alone. -/
theorem c7_host_match_alone_suffices :
    (litPat "foo").fullmatch "bar" = none ∧
    Regex.find [] [⟨some (litPat "example.com"), some (litPat "foo"), 3⟩]
        "example.com" "bar" = .ok [(3, [])] := ⟨rfl, rfl⟩

/-- C8.  The tag `date` is seeded in `__default_types__`, yet converting a
`date`-tagged capture with no caller-supplied registry raises
`KeyError('date')`: `Regex.find` falls back to `globals()['__builtins__']`
— the Python builtins namespace, which has no `date` — and never consults
`__default_types__`.  A `str`-tagged capture converts only because `str`
happens to be a Python builtin. -/
theorem c8_default_types_never_consulted :
    "date" ∈ default_types.map Prod.fst ∧
    lookupAssoc python_builtins "date" = none ∧
    Regex.find []
        [⟨none, some (capPat "2020-01-01"
          [("date" ++ Regex.separator ++ "d", "2020-01-01")]), 9⟩]
        "" "2020-01-01" = .error (.keyError "date") ∧
    Regex.find []
        [⟨none, some (capPat "abc"
          [("str" ++ Regex.separator ++ "x", "abc")]), 9⟩]
        "" "abc" = .ok [(9, [("x", PyArg.s "abc")])] := by
  refine ⟨?_, rfl, rfl, rfl⟩
  decide

end AspyreModel
